import Mathlib

/-!
# XorLang core pipeline — shallow embedding

A shallow embedding of the XorLang language core
(`src/xorlang/core/lexer.py`, `parser.py`, `interpreter.py`, `runner.py`)
as executable Lean definitions, together with theorems settling the
specification claims about that code.

Modelling conventions:
* Machine/host integers are `Int` (Python integers are arbitrary precision).
* Python `float` values are modelled as `ℚ`; the claims checked here concern
  only the int/float *kind* of results and exactly representable values,
  never binary64 rounding.
* Source positions (`Position`, `pos_start`/`pos_end`) are carried by the
  Python tokens purely for diagnostics; they are not modelled, and error
  values keep the message text only.
* Mutable Python objects with identity (`Environment`, `InstanceValue`) are
  modelled as index-addressed stores inside an explicit interpreter state.
* Fallible code returns `Except`/explicit outcome values; the unbounded
  recursion of the tree-walking evaluator is made total with a fuel
  parameter (`Res.fuel` marks exhaustion, the proxy for nontermination).
-/

namespace XorLang

/-! ## Tokens (`lexer.py`, `Token`, `TT_*`) -/

/-- Token kinds, one constructor per `TT_*` constant of `lexer.py`. -/
inductive TokType where
  | int | float | string | identifier | keyword
  | plus | minus | mul | div | mod
  | eq | ee | ne | lt | gt | lte | gte
  | lparen | rparen | lbrace | rbrace | comma | semi | dot | eof
  deriving DecidableEq, Repr

/-- Token payload: Python stores `int`, `float`, `str` or `None` in
`Token.value`. -/
inductive TokVal where
  | none
  | i (n : Int)
  | f (q : ℚ)
  | s (str : String)
  deriving DecidableEq, Repr

/-- A token, minus the diagnostic positions (`pos_start`/`pos_end`). -/
structure Token where
  type : TokType
  value : TokVal
  deriving DecidableEq, Repr

/-- `Token.matches(type_, value)` for keyword tokens. -/
def Token.matchesKw (t : Token) (kw : String) : Bool :=
  t.type = .keyword && t.value = .s kw

/-! ## Lexer (`lexer.py`, class `Lexer`) -/

/-- `DIGITS` membership: the characters `0123456789`. -/
def isDigitCh (c : Char) : Bool := '0' ≤ c && c ≤ '9'

/-- `LETTERS` membership: ASCII letters. -/
def isLetterCh (c : Char) : Bool :=
  ('a' ≤ c && c ≤ 'z') || ('A' ≤ c && c ≤ 'Z')

/-- `LETTERS_DIGITS` membership: letters, digits and underscore. -/
def isLetterDigitCh (c : Char) : Bool :=
  isLetterCh c || isDigitCh c || c = '_'

/-- The fixed `KEYWORDS` list of `lexer.py`. -/
def keywords : List String :=
  ["var", "func", "return", "if", "else", "while", "for", "true", "false",
   "null", "import", "class", "new", "this"]

/-- Quote characters: `"` (code 34) and the single quote (code 39). -/
def isQuoteCh (c : Char) : Bool := c.toNat = 34 || c.toNat = 39

/-- The backslash character (code 92). -/
def backslashCh : Char := Char.ofNat 92

/-- Lexical errors of `errors.py`, message text only (positions dropped).
`fuelOut` is the fuel sentinel; the Python loop always terminates, and the
fuel chosen in `lexRun` is sufficient, so this constructor is never produced
on the inputs evaluated in this file. -/
inductive LexError where
  | illegalChar (details : String)
  | unterminatedString
  | fuelOut
  deriving DecidableEq, Repr

/-- Diagnostic rendering of a lexical error (`format_error` without the
source/position block, which is not modelled). -/
def LexError.render : LexError → String
  | .illegalChar d => "IllegalCharError: Illegal character: " ++ d
  | .unterminatedString => "UnterminatedStringError: Unterminated string"
  | .fuelOut => "LexError: fuel exhausted"

/-- `Lexer.skip_line_comment`: drop up to and including the next newline. -/
def skipLineComment : List Char → List Char
  | [] => []
  | c :: rest => if c = '\n' then rest else skipLineComment rest

/-- `Lexer.skip_block_comment` after the opening `/*` has been consumed:
returns the text after the closing delimiter, or `none` when unterminated. -/
def skipBlockComment : List Char → Option (List Char)
  | [] => none
  | [_] => none
  | c :: d :: rest =>
    if c = '*' && d = '/' then some rest
    else skipBlockComment (d :: rest)

/-- `Lexer.make_number` character scan: collect digits and at most one dot;
a second dot terminates the number. Returns the collected characters and the
rest of the input. -/
def numScan : List Char → Bool → List Char × List Char
  | [], _ => ([], [])
  | c :: rest, seenDot =>
    if isDigitCh c then
      let (n, r) := numScan rest seenDot
      (c :: n, r)
    else if c = '.' then
      if seenDot then ([], c :: rest)
      else
        let (n, r) := numScan rest true
        (c :: n, r)
    else ([], c :: rest)

/-- Natural value of a digit run (Python `int(num)`). -/
def digitsToNat (cs : List Char) : Nat :=
  cs.foldl (fun acc c => acc * 10 + (c.toNat - '0'.toNat)) 0

/-- Numeric token from the collected characters: `int(num)` when no dot was
collected, `float(num)` otherwise (modelled exactly in `ℚ`). -/
def numToken (cs : List Char) : Token :=
  let intPart := cs.takeWhile (· ≠ '.')
  let fracPart := (cs.dropWhile (· ≠ '.')).drop 1
  if cs.contains '.' then
    .mk .float (.f ((digitsToNat intPart : ℚ) +
      (digitsToNat fracPart : ℚ) / ((10 : ℚ) ^ fracPart.length)))
  else
    .mk .int (.i (digitsToNat cs))

/-- `Lexer.make_identifier_or_keyword`: collect `LETTERS_DIGITS` characters,
then classify against the keyword list. -/
def identToken (cs : List Char) : Token × List Char :=
  let name := cs.takeWhile isLetterDigitCh
  let rest := cs.dropWhile isLetterDigitCh
  let s := String.mk name
  (if s ∈ keywords then .mk .keyword (.s s) else .mk .identifier (.s s), rest)

/-- One escaped character of `Lexer.make_string`: `n`/`t`/`r` map to control
characters; every other character (including the quotes and the backslash)
maps to itself. -/
def escapeChar (c : Char) : Char :=
  if c = 'n' then '\n'
  else if c = 't' then '\t'
  else if c = 'r' then '\r'
  else c

/-- `Lexer.make_string` body after the opening quote: accumulate until the
matching unescaped quote; `none` when the input ends first. -/
def strScan (q : Char) : List Char → Bool → Option (List Char × List Char)
  | [], _ => none
  | c :: rest, escape =>
    if escape then
      match strScan q rest false with
      | some (s, r) => some (escapeChar c :: s, r)
      | none => none
    else if c = q then some ([], rest)
    else if c.toNat = 92 then strScan q rest true
    else
      match strScan q rest false with
      | some (s, r) => some (c :: s, r)
      | none => none

/-- The main tokenization loop of `Lexer.make_tokens`, one fuel unit per
loop iteration. Note that the `import` keyword receives **no** treatment
here: it flows through `make_identifier_or_keyword` like any other keyword
(`Lexer.handle_import` exists in the source but is never called from
`make_tokens`). -/
def lexGo : Nat → List Char → Except LexError (List Token)
  | 0, _ => .error .fuelOut
  | _ + 1, [] => .ok [.mk .eof .none]
  | fuel + 1, c :: rest =>
    let push (t : Token) (r : List Char) : Except LexError (List Token) :=
      (lexGo fuel r).map (t :: ·)
    if c = ' ' || c = '\t' || c = '\r' then lexGo fuel rest
    else if c = '\n' then lexGo fuel rest
    else if c = '/' && rest.head? = some '/' then
      lexGo fuel (skipLineComment rest)
    else if c = '/' && rest.head? = some '*' then
      match skipBlockComment (rest.drop 1) with
      | some r => lexGo fuel r
      | none => .error (.illegalChar "Unterminated block comment")
    else if isDigitCh c then
      let (n, r) := numScan (c :: rest) false
      push (numToken n) r
    else if isLetterCh c || c = '_' then
      let (t, r) := identToken (c :: rest)
      push t r
    else if isQuoteCh c then
      match strScan c rest false with
      | some (s, r) => push (.mk .string (.s (String.mk s))) r
      | none => .error .unterminatedString
    else if c = '+' then push (.mk .plus .none) rest
    else if c = '-' then push (.mk .minus .none) rest
    else if c = '*' then push (.mk .mul .none) rest
    else if c = '/' then push (.mk .div .none) rest
    else if c = '%' then push (.mk .mod .none) rest
    else if c = '(' then push (.mk .lparen .none) rest
    else if c = ')' then push (.mk .rparen .none) rest
    else if c.toNat = 123 then push (.mk .lbrace .none) rest
    else if c.toNat = 125 then push (.mk .rbrace .none) rest
    else if c = ',' then push (.mk .comma .none) rest
    else if c = ';' then push (.mk .semi .none) rest
    else if c = '.' then push (.mk .dot .none) rest
    else if c = '=' then
      if rest.head? = some '=' then push (.mk .ee .none) (rest.drop 1)
      else push (.mk .eq .none) rest
    else if c = '!' then
      if rest.head? = some '=' then push (.mk .ne .none) (rest.drop 1)
      else .error (.illegalChar "'!' must be followed by '='")
    else if c = '<' then
      if rest.head? = some '=' then push (.mk .lte .none) (rest.drop 1)
      else push (.mk .lt .none) rest
    else if c = '>' then
      if rest.head? = some '=' then push (.mk .gte .none) (rest.drop 1)
      else push (.mk .gt .none) rest
    else .error (.illegalChar (String.mk ['\'', c, '\'']))

/-- `lexer.run(fn, text)`: tokenize a whole source text. Every loop
iteration of `make_tokens` consumes at least one character, so
`length + 1` fuel is sufficient. -/
def lexRun (text : String) : Except LexError (List Token) :=
  lexGo (text.length + 1) text.toList

end XorLang

namespace XorLang

/-! ## AST (`ast_nodes.py`) -/

/-- AST nodes (`ast_nodes.py`), spans dropped. `BoolNode` keeps the keyword
text of its token, exactly as the Python node keeps the token; its truth
value is only decided at evaluation time (`value == 'true'`). -/
inductive Node where
  | num (v : TokVal)
  | strLit (s : String)
  | boolLit (s : String)
  | nullLit
  | varAccess (name : String)
  | memberAccess (obj : Node) (member : String)
  | varDecl (name : String) (value : Option Node)
  | assign (target expr : Node)
  | binOp (op : TokType) (l r : Node)
  | unaryOp (op : TokType) (e : Node)
  | call (callee : Node) (args : List Node)
  | block (stmts : List Node)
  | exprStmt (e : Node)
  | ifStmt (cases : List (Node × Node)) (els : Option Node)
  | whileStmt (cond body : Node)
  | forStmt (init cond update : Option Node) (body : Node)
  | funcDef (name : Option String) (params : List String) (body : Node)
  | ret (e : Option Node)
  | classDef (name : String) (members : List Node)
  | newExpr (clsName : String) (args : List Node)
  | thisExpr
  | importStmt (moduleName : String)
  deriving Repr

/-! ## Parser (`parser.py`, class `Parser`)

The core parser never calls `try_register`/`reverse`, so it is a pure
forward recursive-descent parser; it is modelled on a token list consumed
from the front. Advancing past the end leaves the current token at EOF in
Python (`update_current_tok` keeps the last token), which `curTok`'s
default reproduces. A fuel parameter makes the mutual recursion total;
`ParseErr.fuelOut` never arises at the fuel values used in this file. -/

/-- Parse errors: the message of `ParseError` (positions dropped), or the
fuel sentinel. -/
inductive ParseErr where
  | syntaxErr (msg : String)
  | fuelOut
  deriving DecidableEq, Repr

/-- `Parser.current_tok`: the head token, or EOF past the end. -/
def curTok (ts : List Token) : Token := ts.headD (.mk .eof .none)

/-- `Parser.advance`. -/
def adv (ts : List Token) : List Token := ts.tail

/-- Skip one-or-more-semicolon separators (`statements` inner loop). -/
def skipSemis : List Token → List Token
  | [] => []
  | t :: ts => if t.type = .semi then skipSemis ts else t :: ts

mutual

/-- `Parser.statements`: a statement list up to `}` or EOF. -/
def pStatements : Nat → List Token → Except ParseErr (Node × List Token)
  | 0, _ => .error .fuelOut
  | fuel + 1, ts =>
    if (curTok ts).type = .eof ∨ (curTok ts).type = .rbrace then
      .ok (.block [], ts)
    else do
      let (first, ts) ← pStatement fuel ts
      let (stmts, ts) ← pStatementsLoop fuel ts
      .ok (.block (first :: stmts), ts)

/-- The `while` loop inside `Parser.statements`. -/
def pStatementsLoop : Nat → List Token → Except ParseErr (List Node × List Token)
  | 0, _ => .error .fuelOut
  | fuel + 1, ts =>
    if (curTok ts).type = .eof ∨ (curTok ts).type = .rbrace then
      .ok ([], ts)
    else
      let ts := skipSemis ts
      if (curTok ts).type = .eof ∨ (curTok ts).type = .rbrace then
        .ok ([], ts)
      else do
        let (s, ts) ← pStatement fuel ts
        let (rest, ts) ← pStatementsLoop fuel ts
        .ok (s :: rest, ts)

/-- `Parser.statement`: keyword dispatch, falling back to an expression
statement. Note there is no case for a bare `{` block and none for the
`import` keyword. -/
def pStatement : Nat → List Token → Except ParseErr (Node × List Token)
  | 0, _ => .error .fuelOut
  | fuel + 1, ts =>
    if (curTok ts).matchesKw "var" then pVarDecl fuel ts
    else if (curTok ts).matchesKw "if" then pIf fuel ts
    else if (curTok ts).matchesKw "while" then pWhile fuel ts
    else if (curTok ts).matchesKw "for" then pFor fuel ts
    else if (curTok ts).matchesKw "func" then pFuncDef fuel ts
    else if (curTok ts).matchesKw "class" then pClassDef fuel ts
    else if (curTok ts).matchesKw "return" then pReturn fuel ts
    else do
      let (e, ts) ← pExpr fuel ts
      .ok (.exprStmt e, ts)

/-- `Parser.var_decl_statement`. -/
def pVarDecl : Nat → List Token → Except ParseErr (Node × List Token)
  | 0, _ => .error .fuelOut
  | fuel + 1, ts =>
    let ts := adv ts
    match (curTok ts).type, (curTok ts).value with
    | .identifier, .s name =>
      let ts := adv ts
      if (curTok ts).type = .eq then do
        let (e, ts) ← pExpr fuel (adv ts)
        .ok (.varDecl name (some e), ts)
      else
        .ok (.varDecl name none, ts)
    | _, _ => .error (.syntaxErr "Expected identifier")

/-- `Parser.if_statement`: the first case, then `elif` cases (dead in
practice: the lexer has no `elif` keyword) and an optional `else`. -/
def pIf : Nat → List Token → Except ParseErr (Node × List Token)
  | 0, _ => .error .fuelOut
  | fuel + 1, ts => do
    let ts := adv ts
    let ((c, b), ts) ← pCondBlock fuel ts
    let (cases, ts) ← pElifLoop fuel ts
    if (curTok ts).matchesKw "else" then
      let ts := adv ts
      if (curTok ts).type = .lbrace then do
        let (els, ts) ← pStatements fuel (adv ts)
        if (curTok ts).type = .rbrace then
          .ok (.ifStmt ((c, b) :: cases) (some els), adv ts)
        else .error (.syntaxErr "Expected '\x7d'")
      else .error (.syntaxErr "Expected '\x7b'")
    else
      .ok (.ifStmt ((c, b) :: cases) none, ts)

/-- One `( condition ) { body }` group, shared by `if`/`elif`/`while`. -/
def pCondBlock : Nat → List Token → Except ParseErr ((Node × Node) × List Token)
  | 0, _ => .error .fuelOut
  | fuel + 1, ts =>
    if (curTok ts).type = .lparen then do
      let (c, ts) ← pExpr fuel (adv ts)
      if (curTok ts).type = .rparen then
        let ts := adv ts
        if (curTok ts).type = .lbrace then do
          let (b, ts) ← pStatements fuel (adv ts)
          if (curTok ts).type = .rbrace then
            .ok ((c, b), adv ts)
          else .error (.syntaxErr "Expected '\x7d'")
        else .error (.syntaxErr "Expected '\x7b'")
      else .error (.syntaxErr "Expected ')'")
    else .error (.syntaxErr "Expected '('")

/-- The `elif` loop of `Parser.if_statement`. -/
def pElifLoop : Nat → List Token → Except ParseErr (List (Node × Node) × List Token)
  | 0, _ => .error .fuelOut
  | fuel + 1, ts =>
    if (curTok ts).matchesKw "elif" then do
      let ((c, b), ts) ← pCondBlock fuel (adv ts)
      let (rest, ts) ← pElifLoop fuel ts
      .ok ((c, b) :: rest, ts)
    else .ok ([], ts)

/-- `Parser.while_statement`. -/
def pWhile : Nat → List Token → Except ParseErr (Node × List Token)
  | 0, _ => .error .fuelOut
  | fuel + 1, ts => do
    let ((c, b), ts) ← pCondBlock fuel (adv ts)
    .ok (.whileStmt c b, ts)

/-- `Parser.for_statement`. -/
def pFor : Nat → List Token → Except ParseErr (Node × List Token)
  | 0, _ => .error .fuelOut
  | fuel + 1, ts => do
    let ts := adv ts
    if (curTok ts).type = .lparen then do
      let ts := adv ts
      let (initN, ts) ←
        if (curTok ts).type = .semi then
          pure ((none : Option Node), adv ts)
        else do
          let (s, ts) ← pStatement fuel ts
          if (curTok ts).type = .semi then
            pure (some s, adv ts)
          else
            throw (ParseErr.syntaxErr "Expected ';' after for loop initializer")
      let (condN, ts) ←
        if (curTok ts).type = .semi then
          pure ((none : Option Node), adv ts)
        else do
          let (e, ts) ← pExpr fuel ts
          if (curTok ts).type = .semi then
            pure (some e, adv ts)
          else
            throw (ParseErr.syntaxErr "Expected ';' after for loop condition")
      let (updateN, ts) ←
        if (curTok ts).type = .rparen then
          pure ((none : Option Node), ts)
        else do
          let (e, ts) ← pExpr fuel ts
          pure (some e, ts)
      if (curTok ts).type = .rparen then
        let ts := adv ts
        if (curTok ts).type = .lbrace then do
          let (b, ts) ← pStatements fuel (adv ts)
          if (curTok ts).type = .rbrace then
            .ok (.forStmt initN condN updateN b, adv ts)
          else .error (.syntaxErr "Expected '\x7d'")
        else .error (.syntaxErr "Expected '\x7b'")
      else .error (.syntaxErr "Expected ')' after for loop clauses")
    else .error (.syntaxErr "Expected '('")

/-- `Parser.func_def_statement`. -/
def pFuncDef : Nat → List Token → Except ParseErr (Node × List Token)
  | 0, _ => .error .fuelOut
  | fuel + 1, ts => do
    let ts := adv ts
    let (name, ts) :=
      match (curTok ts).type, (curTok ts).value with
      | .identifier, .s n => (some n, adv ts)
      | _, _ => (none, ts)
    if (curTok ts).type = .lparen then do
      let ts := adv ts
      let (params, ts) ←
        match (curTok ts).type, (curTok ts).value with
        | .identifier, .s p => do
          let (rest, ts) ← pParamsLoop fuel (adv ts)
          pure (p :: rest, ts)
        | _, _ => pure (([] : List String), ts)
      if (curTok ts).type = .rparen then
        let ts := adv ts
        if (curTok ts).type = .lbrace then do
          let (b, ts) ← pStatements fuel (adv ts)
          if (curTok ts).type = .rbrace then
            .ok (.funcDef name params b, adv ts)
          else .error (.syntaxErr "Expected '\x7d'")
        else .error (.syntaxErr "Expected '\x7b' in function definition")
      else .error (.syntaxErr "Expected ')' or ',' in function definition")
    else .error (.syntaxErr "Expected '(' in function definition")

/-- The comma-separated parameter loop of `Parser.func_def_statement`. -/
def pParamsLoop : Nat → List Token → Except ParseErr (List String × List Token)
  | 0, _ => .error .fuelOut
  | fuel + 1, ts =>
    if (curTok ts).type = .comma then
      match (curTok (adv ts)).type, (curTok (adv ts)).value with
      | .identifier, .s p => do
        let (rest, ts) ← pParamsLoop fuel (adv (adv ts))
        .ok (p :: rest, ts)
      | _, _ => .error (.syntaxErr "Expected identifier")
    else .ok ([], ts)

/-- `Parser.class_def_statement`. -/
def pClassDef : Nat → List Token → Except ParseErr (Node × List Token)
  | 0, _ => .error .fuelOut
  | fuel + 1, ts => do
    let ts := adv ts
    match (curTok ts).type, (curTok ts).value with
    | .identifier, .s name =>
      let ts := adv ts
      if (curTok ts).type = .lbrace then do
        let (members, ts) ← pClassMembersLoop fuel (adv ts)
        if (curTok ts).type = .rbrace then
          .ok (.classDef name members, adv ts)
        else .error (.syntaxErr "Expected '\x7d' to close class body")
      else .error (.syntaxErr "Expected '\x7b' after class name")
    | _, _ => .error (.syntaxErr "Expected class name")

/-- The member loop of `Parser.class_def_statement`. -/
def pClassMembersLoop : Nat → List Token → Except ParseErr (List Node × List Token)
  | 0, _ => .error .fuelOut
  | fuel + 1, ts =>
    if (curTok ts).type = .rbrace ∨ (curTok ts).type = .eof then
      .ok ([], ts)
    else
      let ts := skipSemis ts
      if (curTok ts).matchesKw "func" then do
        let (m, ts) ← pFuncDef fuel ts
        let (rest, ts) ← pClassMembersLoop fuel ts
        .ok (m :: rest, ts)
      else if (curTok ts).type = .rbrace then
        .ok ([], ts)
      else
        .error (.syntaxErr "Expected 'func' member or '\x7d' in class definition")

/-- `Parser.return_statement`. -/
def pReturn : Nat → List Token → Except ParseErr (Node × List Token)
  | 0, _ => .error .fuelOut
  | fuel + 1, ts =>
    let ts := adv ts
    if (curTok ts).type = .semi then
      .ok (.ret none, ts)
    else do
      let (e, ts) ← pExpr fuel ts
      .ok (.ret (some e), ts)

/-- `Parser.expr`: equality level plus the assignment production. -/
def pExpr : Nat → List Token → Except ParseErr (Node × List Token)
  | 0, _ => .error .fuelOut
  | fuel + 1, ts => do
    let (left, ts) ← pEquality fuel ts
    if (curTok ts).type = .eq then
      match left with
      | .varAccess _ | .memberAccess _ _ => do
        let (right, ts) ← pExpr fuel (adv ts)
        .ok (.assign left right, ts)
      | _ => .error (.syntaxErr "Invalid assignment target")
    else
      .ok (left, ts)

/-- `bin_op(comp, (EE, NE))`. -/
def pEquality : Nat → List Token → Except ParseErr (Node × List Token)
  | 0, _ => .error .fuelOut
  | fuel + 1, ts => do
    let (l, ts) ← pComp fuel ts
    pEqualityLoop fuel l ts

def pEqualityLoop : Nat → Node → List Token → Except ParseErr (Node × List Token)
  | 0, _, _ => .error .fuelOut
  | fuel + 1, left, ts =>
    if (curTok ts).type = .ee ∨ (curTok ts).type = .ne then do
      let (r, ts2) ← pComp fuel (adv ts)
      pEqualityLoop fuel (.binOp (curTok ts).type left r) ts2
    else .ok (left, ts)

/-- `Parser.comp`: `bin_op(term, (LT, GT, LTE, GTE))`. -/
def pComp : Nat → List Token → Except ParseErr (Node × List Token)
  | 0, _ => .error .fuelOut
  | fuel + 1, ts => do
    let (l, ts) ← pTerm fuel ts
    pCompLoop fuel l ts

def pCompLoop : Nat → Node → List Token → Except ParseErr (Node × List Token)
  | 0, _, _ => .error .fuelOut
  | fuel + 1, left, ts =>
    if (curTok ts).type = .lt ∨ (curTok ts).type = .gt ∨
        (curTok ts).type = .lte ∨ (curTok ts).type = .gte then do
      let (r, ts2) ← pTerm fuel (adv ts)
      pCompLoop fuel (.binOp (curTok ts).type left r) ts2
    else .ok (left, ts)

/-- `Parser.term`: `bin_op(factor, (PLUS, MINUS))`. -/
def pTerm : Nat → List Token → Except ParseErr (Node × List Token)
  | 0, _ => .error .fuelOut
  | fuel + 1, ts => do
    let (l, ts) ← pFactor fuel ts
    pTermLoop fuel l ts

def pTermLoop : Nat → Node → List Token → Except ParseErr (Node × List Token)
  | 0, _, _ => .error .fuelOut
  | fuel + 1, left, ts =>
    if (curTok ts).type = .plus ∨ (curTok ts).type = .minus then do
      let (r, ts2) ← pFactor fuel (adv ts)
      pTermLoop fuel (.binOp (curTok ts).type left r) ts2
    else .ok (left, ts)

/-- `Parser.factor`: `bin_op(unary, (TT_MUL, TT_DIV))` — the source accepts
only `*` and `/` here; `TT_MOD` is absent (it is not even imported by
`parser.py`). -/
def pFactor : Nat → List Token → Except ParseErr (Node × List Token)
  | 0, _ => .error .fuelOut
  | fuel + 1, ts => do
    let (l, ts) ← pUnary fuel ts
    pFactorLoop fuel l ts

def pFactorLoop : Nat → Node → List Token → Except ParseErr (Node × List Token)
  | 0, _, _ => .error .fuelOut
  | fuel + 1, left, ts =>
    if (curTok ts).type = .mul ∨ (curTok ts).type = .div then do
      let (r, ts2) ← pUnary fuel (adv ts)
      pFactorLoop fuel (.binOp (curTok ts).type left r) ts2
    else .ok (left, ts)

/-- `Parser.unary`. -/
def pUnary : Nat → List Token → Except ParseErr (Node × List Token)
  | 0, _ => .error .fuelOut
  | fuel + 1, ts =>
    if (curTok ts).type = .plus ∨ (curTok ts).type = .minus then do
      let (e, ts2) ← pUnary fuel (adv ts)
      .ok (.unaryOp (curTok ts).type e, ts2)
    else
      pCallOrMember fuel ts

/-- `Parser.call_or_member`. -/
def pCallOrMember : Nat → List Token → Except ParseErr (Node × List Token)
  | 0, _ => .error .fuelOut
  | fuel + 1, ts => do
    let (n, ts) ← pPrimary fuel ts
    pCallChainLoop fuel n ts

/-- The call/member chain loop of `Parser.call_or_member`. -/
def pCallChainLoop : Nat → Node → List Token → Except ParseErr (Node × List Token)
  | 0, _, _ => .error .fuelOut
  | fuel + 1, node, ts =>
    if (curTok ts).type = .lparen then do
      let (args, ts) ← pCallArgs fuel (adv ts)
      pCallChainLoop fuel (.call node args) ts
    else if (curTok ts).type = .dot then
      match (curTok (adv ts)).type, (curTok (adv ts)).value with
      | .identifier, .s m =>
        pCallChainLoop fuel (.memberAccess node m) (adv (adv ts))
      | _, _ => .error (.syntaxErr "Expected identifier after '.'")
    else .ok (node, ts)

/-- The argument list of a call (after the `(`), ending at `)`. -/
def pCallArgs : Nat → List Token → Except ParseErr (List Node × List Token)
  | 0, _ => .error .fuelOut
  | fuel + 1, ts =>
    if (curTok ts).type = .rparen then .ok ([], adv ts)
    else do
      let (a, ts) ← pExpr fuel ts
      let (rest, ts) ← pArgsLoop fuel ts
      if (curTok ts).type = .rparen then .ok (a :: rest, adv ts)
      else .error (.syntaxErr "Expected ')' after arguments")

/-- The comma loop of an argument list. -/
def pArgsLoop : Nat → List Token → Except ParseErr (List Node × List Token)
  | 0, _ => .error .fuelOut
  | fuel + 1, ts =>
    if (curTok ts).type = .comma then do
      let (a, ts) ← pExpr fuel (adv ts)
      let (rest, ts) ← pArgsLoop fuel ts
      .ok (a :: rest, ts)
    else .ok ([], ts)

/-- `Parser.primary`. -/
def pPrimary : Nat → List Token → Except ParseErr (Node × List Token)
  | 0, _ => .error .fuelOut
  | fuel + 1, ts =>
    let t := curTok ts
    match t.type, t.value with
    | .int, v => .ok (.num v, adv ts)
    | .float, v => .ok (.num v, adv ts)
    | .string, .s s => .ok (.strLit s, adv ts)
    | .keyword, .s kw =>
      if kw = "true" ∨ kw = "false" then .ok (.boolLit kw, adv ts)
      else if kw = "null" then .ok (.nullLit, adv ts)
      else if kw = "this" then .ok (.thisExpr, adv ts)
      else if kw = "new" then pNew fuel ts
      else .error (.syntaxErr
        "Expected int, float, string, identifier, 'true', 'false', 'null', or '('")
    | .identifier, .s name => .ok (.varAccess name, adv ts)
    | .lparen, _ => do
      let (e, ts) ← pExpr fuel (adv ts)
      if (curTok ts).type = .rparen then .ok (e, adv ts)
      else .error (.syntaxErr "Expected ')'")
    | _, _ => .error (.syntaxErr
        "Expected int, float, string, identifier, 'true', 'false', 'null', or '('")

/-- `Parser.new_expression`. -/
def pNew : Nat → List Token → Except ParseErr (Node × List Token)
  | 0, _ => .error .fuelOut
  | fuel + 1, ts =>
    let ts := adv ts
    match (curTok ts).type, (curTok ts).value with
    | .identifier, .s cname =>
      let ts := adv ts
      if (curTok ts).type = .lparen then do
        let (args, ts) ← pNewArgs fuel (adv ts)
        .ok (.newExpr cname args, ts)
      else .error (.syntaxErr "Expected '(' after class name")
    | _, _ => .error (.syntaxErr "Expected class name after 'new'")

/-- The argument list of a `new` expression (after the `(`). -/
def pNewArgs : Nat → List Token → Except ParseErr (List Node × List Token)
  | 0, _ => .error .fuelOut
  | fuel + 1, ts =>
    if (curTok ts).type = .rparen then .ok ([], adv ts)
    else do
      let (a, ts) ← pExpr fuel ts
      let (rest, ts) ← pArgsLoop fuel ts
      if (curTok ts).type = .rparen then .ok (a :: rest, adv ts)
      else .error (.syntaxErr "Expected ')' after arguments")

end

/-- `Parser.parse`: the top-level entry. After `statements`, a leftover
non-EOF token is a syntax error. -/
def pParse (fuel : Nat) (ts : List Token) : Except ParseErr Node := do
  let (node, ts) ← pStatements fuel ts
  if (curTok ts).type = .eof then .ok node
  else .error (.syntaxErr
    "Expected '+', '-', '*', '/', '==', '!=', '<', '>', '<=', '>=', 'var', 'if', 'for', 'while', 'func', 'return', or 'class'")

end XorLang

namespace XorLang

/-! ## Runtime values and interpreter state (`interpreter.py`)

`Environment` and `InstanceValue` are mutable Python objects with identity
(`id(...)` keys the member cache); both are modelled as index-addressed
stores carried in an explicit state `St`. Native built-in functions
(`print`, math, GUI, ...) are host callables outside the language core
(spec §6); they appear as opaque `Value.builtin` registry entries whose
bodies are not modelled — no claim below invokes one. -/

/-- Runtime values. `closure` is `FunctionValue` (its `closure` field is an
environment id), `cls` is `ClassValue`, `inst` an `InstanceValue` store id,
`envV` an `Environment` used as a module namespace value, and `builtin` a
native-function registry entry `('builtin', name, func, {'pass_this': ...})`
with an optionally bound receiver instance. -/
inductive Value where
  | int (n : Int)
  | float (q : ℚ)
  | str (s : String)
  | bool (b : Bool)
  | null
  | closure (name : Option String) (params : List String) (body : Node)
      (closureEnv : Nat)
  | cls (name : String) (members : List (String × Value))
  | inst (id : Nat)
  | envV (id : Nat)
  | builtin (name : String) (passThis : Bool) (bound : Option Nat)
  deriving Repr

/-- Python-dict association list lookup. -/
def alGet {α : Type} (l : List (String × α)) (k : String) : Option α :=
  (l.find? (fun p => p.1 = k)).map (·.2)

/-- Python-dict association list update: overwrite in place or append. -/
def alSet {α : Type} : List (String × α) → String → α → List (String × α)
  | [], k, v => [(k, v)]
  | (k0, v0) :: rest, k, v =>
    if k0 = k then (k, v) :: rest else (k0, v0) :: alSet rest k v

/-- One `Environment`: parent link, `values` dict, and the per-environment
lookup cache `_cache` (keyed by name: the Python key `f"{id(self)}:{name}"`
lives in the environment's own dict, so the id prefix is constant) together
with `_cache_version`. -/
structure Frame where
  parent : Option Nat
  values : List (String × Value)
  cache : List (String × (Value × Nat))
  version : Nat
  deriving Repr

/-- One `InstanceValue`: its class (name and member map) and mutable field
dict. -/
structure Inst where
  clsName : String
  clsMembers : List (String × Value)
  fields : List (String × Value)
  deriving Repr

/-- Interpreter state: the environment store, the instance store, the
interpreter-wide `_method_cache` (keyed by instance id and member name; the
Python cache also stores entries for class and array objects, but class
member maps are never mutated, so modelling those entries is observationally
transparent and omitted), and the inputs of the module loader: a read-only
file system map `fs` from paths to file contents, and `stdlib_path`. -/
structure St where
  envs : List Frame
  insts : List Inst
  methodCache : List ((Nat × String) × Value)
  fs : List (String × String)
  stdlibPath : String
  deriving Repr

/-- A fresh `Environment(parent)`. -/
def emptyFrame (parent : Option Nat) : Frame := ⟨parent, [], [], 0⟩

/-- `Environment(parent)` construction: append a fresh frame, returning its
id. -/
def allocEnv (st : St) (parent : Option Nat) : Nat × St :=
  (st.envs.length, { st with envs := st.envs ++ [emptyFrame parent] })

/-- Replace frame `e` (no-op on an absent id, which cannot arise). -/
def setFrame (st : St) (e : Nat) (fr : Frame) : St :=
  { st with envs := st.envs.set e fr }

/-- `Environment.define`: insert/overwrite locally and invalidate the cache
by bumping the version counter. -/
def envDefine (st : St) (e : Nat) (n : String) (v : Value) : St :=
  match st.envs[e]? with
  | some fr =>
    setFrame st e { fr with values := alSet fr.values n v, version := fr.version + 1 }
  | none => st

/-- `Environment.resolve`: walk the parent chain for the frame holding `n`.
The recursion is bounded by the store size; an acyclic chain (the only kind
the interpreter ever builds — every parent predates its child) visits each
frame at most once, so the bound is never hit there. -/
def envResolveAux : Nat → List Frame → Nat → String → Option Nat
  | 0, _, _, _ => none
  | bound + 1, envs, e, n =>
    match envs[e]? with
    | none => none
    | some fr =>
      if (alGet fr.values n).isSome then some e
      else
        match fr.parent with
        | some p => envResolveAux bound envs p n
        | none => none

/-- `Environment.resolve` from frame `e`. -/
def envResolve (st : St) (e : Nat) (n : String) : Option Nat :=
  envResolveAux (st.envs.length + 1) st.envs e n

/-- The cache-miss path of `Environment.get`: resolve along the chain,
raising `RuntimeError("Undefined variable '<n>'")` on failure; on success,
read the owner's value and record it in the calling frame's cache under the
frame's current version. -/
def envGetMiss (st : St) (e : Nat) (n : String) (fr : Frame) :
    Except String Value × St :=
  match envResolve st e n with
  | none => (.error ("Undefined variable '" ++ n ++ "'"), st)
  | some a =>
    let v : Value :=
      match st.envs[a]? with
      | some fra => (alGet fra.values n).getD .null
      | none => .null
    (.ok v, setFrame st e { fr with cache := alSet fr.cache n (v, fr.version) })

/-- `Environment.get`: consult the per-environment cache first and return
the cached value when its stored version matches the frame's current
`_cache_version`; otherwise fall through to the miss path. -/
def envGet (st : St) (e : Nat) (n : String) : Except String Value × St :=
  match st.envs[e]? with
  | none => (.error ("Undefined variable '" ++ n ++ "'"), st)
  | some fr =>
    match alGet fr.cache n with
    | some (v0, ver) =>
      if ver = fr.version then (.ok v0, st) else envGetMiss st e n fr
    | none => envGetMiss st e n fr

/-- `Environment.set`: resolve the owner and update it there (bumping only
the owner's version counter); a name absent from the whole chain is defined
in the frame `set` was called on. -/
def envSet (st : St) (e : Nat) (n : String) (v : Value) : St :=
  match envResolve st e n with
  | none =>
    match st.envs[e]? with
    | some fr =>
      setFrame st e { fr with values := alSet fr.values n v, version := fr.version + 1 }
    | none => st
  | some a =>
    match st.envs[a]? with
    | some fra =>
      setFrame st a { fra with values := alSet fra.values n v, version := fra.version + 1 }
    | none => st

/-- `InstanceValue.set`: mutate the field dict. The interpreter-wide
`_method_cache` is **not** invalidated here (mirroring
`Interpreter._eval_AssignNode` / `InstanceValue.set`). -/
def instSetField (st : St) (i : Nat) (m : String) (v : Value) : St :=
  match st.insts[i]? with
  | some ins =>
    { st with insts := st.insts.set i { ins with fields := alSet ins.fields m v } }
  | none => st

/-- `_method_cache` lookup for an instance id and member name. -/
def mcGet (mc : List ((Nat × String) × Value)) (i : Nat) (m : String) :
    Option Value :=
  (mc.find? (fun p => p.1.1 = i && p.1.2 = m)).map (·.2)

/-- `_method_cache` insertion. -/
def mcSet : List ((Nat × String) × Value) → Nat → String → Value →
    List ((Nat × String) × Value)
  | [], i, m, v => [((i, m), v)]
  | e :: rest, i, m, v =>
    if e.1.1 = i && e.1.2 = m then ((i, m), v) :: rest
    else e :: mcSet rest i m v

/-- Record a member-access result in `_method_cache`. -/
def cacheAdd (st : St) (i : Nat) (m : String) (v : Value) : St :=
  { st with methodCache := mcSet st.methodCache i m v }

/-! ## Operator semantics (`_eval_BinOpNode` / `_eval_UnaryOpNode`)

The arithmetic in `_eval_BinOpNode` is the host's (Python's): booleans
count as 0/1, `int ⊕ int` stays `int` except `/` (true division, always a
float), any float operand makes the result a float, and `+` concatenates
strings. Host behaviour outside these kinds (sequence repetition `str * int`,
printf-style `str % tuple`, dataclass equality on function values, ...) is
not modelled: no claim exercises it, and here such operand mixes yield the
generic host-type error. -/

/-- Operand as an `Int`, Python-style (bool counts as 0/1). -/
def asIntOp : Value → Option Int
  | .int n => some n
  | .bool b => some (if b then 1 else 0)
  | _ => none

/-- Operand as a number (`ℚ`), Python-style. -/
def asNumQ : Value → Option ℚ
  | .int n => some (n : ℚ)
  | .float q => some q
  | .bool b => some (if b then 1 else 0)
  | _ => none

/-- Host `TypeError` placeholder message for unsupported operand kinds. -/
def typeErrMsg : String := "unsupported operand type(s)"

/-- Shared shape of `+`/`-`/`*`: integer result when both operands are
integral, float result when a float is involved. -/
def arith (f : Int → Int → Int) (g : ℚ → ℚ → ℚ) (a b : Value) :
    Except String Value :=
  match asIntOp a, asIntOp b with
  | some x, some y => .ok (.int (f x y))
  | _, _ =>
    match asNumQ a, asNumQ b with
    | some x, some y => .ok (.float (g x y))
    | _, _ => .error typeErrMsg

/-- `/`: the source checks `right == 0` first (so any numeric zero,
including `0.0` and `False`, raises `Division by zero`); otherwise Python
true division, always a float. -/
def pyDiv (a b : Value) : Except String Value :=
  if asNumQ b = some 0 then .error "Division by zero"
  else
    match asNumQ a, asNumQ b with
    | some x, some y => .ok (.float (x / y))
    | _, _ => .error typeErrMsg

/-- Python floor-remainder on rationals (sign of the divisor). -/
def pyFloorMod (x y : ℚ) : ℚ := x - y * (⌊x / y⌋ : ℚ)

/-- `%`: zero check first (`Modulo by zero`), else Python `%`
(floor-remainder; `Int.fmod` on integers). -/
def pyMod (a b : Value) : Except String Value :=
  if asNumQ b = some 0 then .error "Modulo by zero"
  else
    match asIntOp a, asIntOp b with
    | some x, some y => .ok (.int (Int.fmod x y))
    | _, _ =>
      match asNumQ a, asNumQ b with
      | some x, some y => .ok (.float (pyFloorMod x y))
      | _, _ => .error typeErrMsg

/-- Python `==` on the modelled kinds: numbers compare by value across
int/float/bool, strings by content, `None` only equals `None`, environments
and instances by identity; mixed kinds are unequal. -/
def pyEq (a b : Value) : Bool :=
  match asNumQ a, asNumQ b with
  | some x, some y => x = y
  | _, _ =>
    match a, b with
    | .str x, .str y => x = y
    | .null, .null => true
    | .envV i, .envV j => i = j
    | .inst i, .inst j => i = j
    | _, _ => false

/-- Python `<`/`>`/`<=`/`>=` on the modelled kinds: numeric comparison, or
lexicographic string comparison; otherwise a host type error. -/
def pyCmp (fn : ℚ → ℚ → Bool) (fs : String → String → Bool) (a b : Value) :
    Except String Value :=
  match asNumQ a, asNumQ b with
  | some x, some y => .ok (.bool (fn x y))
  | _, _ =>
    match a, b with
    | .str x, .str y => .ok (.bool (fs x y))
    | _, _ => .error typeErrMsg

/-- The operator dispatch of `Interpreter._eval_BinOpNode` after both
operands are evaluated. -/
def binOpApply (op : TokType) (l r : Value) : Except String Value :=
  match op with
  | .plus =>
    match l, r with
    | .str a, .str b => .ok (.str (a ++ b))
    | _, _ => arith (· + ·) (· + ·) l r
  | .minus => arith (· - ·) (· - ·) l r
  | .mul => arith (· * ·) (· * ·) l r
  | .div => pyDiv l r
  | .mod => pyMod l r
  | .ee => .ok (.bool (pyEq l r))
  | .ne => .ok (.bool (! pyEq l r))
  | .lt => pyCmp (fun x y => decide (x < y)) (fun x y => decide (x < y)) l r
  | .gt => pyCmp (fun x y => decide (y < x)) (fun x y => decide (y < x)) l r
  | .lte => pyCmp (fun x y => decide (x ≤ y)) (fun x y => decide (x ≤ y)) l r
  | .gte => pyCmp (fun x y => decide (y ≤ x)) (fun x y => decide (y ≤ x)) l r
  | _ => .error "Unknown binary operator"

/-- `Interpreter._eval_UnaryOpNode` after the operand is evaluated. -/
def unaryOpApply (op : TokType) (v : Value) : Except String Value :=
  match op with
  | .plus =>
    match v with
    | .int n => .ok (.int n)
    | .float q => .ok (.float q)
    | .bool b => .ok (.int (if b then 1 else 0))
    | _ => .error typeErrMsg
  | .minus =>
    match v with
    | .int n => .ok (.int (-n))
    | .float q => .ok (.float (-q))
    | .bool b => .ok (.int (if b then -1 else 0))
    | _ => .error typeErrMsg
  | _ => .error "Unknown unary operator"

/-- Python truthiness of the modelled values (`if self.eval(cond): ...`).
Objects without `__bool__`/`__len__` — functions, classes, instances,
environments, native registry tuples — are always truthy. -/
def truthy : Value → Bool
  | .null => false
  | .bool b => b
  | .int n => n ≠ 0
  | .float q => q ≠ 0
  | .str s => s ≠ ""
  | _ => true

end XorLang

namespace XorLang

/-- Evaluation outcomes: normal value, `RuntimeError` (message only, the
`"Runtime error: "` prefix is added by the exception class), the
`ReturnSignal` control transfer, or fuel exhaustion (the totality proxy for
a nonterminating evaluation). -/
inductive Res where
  | ok (v : Value)
  | err (msg : String)
  | retSig (v : Value)
  | fuelOut
  deriving Repr

/-- `Interpreter._eval_MemberAccessNode` after the object has been
evaluated. The interpreter-wide `_method_cache` is consulted **before** the
instance's field dict; on a miss, fields are checked first, then class
members (a user method is re-wrapped with a fresh environment in which
`this` is bound, a `pass_this` native member is curried with the receiver),
and the result is cached — never invalidated. A class member that is
neither a function nor a native entry (or is falsy) falls through to
`Undefined property`. Static access on a class reads the member map (its
caching is observationally transparent because member maps are immutable);
the native-array branch concerns values only built-in functions produce and
is not modelled. -/
def evalMember (obj : Value) (m : String) (st : St) : Res × St :=
  match obj with
  | .inst i =>
    match mcGet st.methodCache i m with
    | some v => (.ok v, st)
    | none =>
      match st.insts[i]? with
      | none => (.err ("Undefined property '" ++ m ++ "'."), st)
      | some ins =>
        match alGet ins.fields m with
        | some v => (.ok v, cacheAdd st i m v)
        | none =>
          match alGet ins.clsMembers m with
          | some (.closure fn ps body clo) =>
            let (be, st) := allocEnv st (some clo)
            let st := envDefine st be "this" obj
            let bound := Value.closure fn ps body be
            (.ok bound, cacheAdd st i m bound)
          | some (.builtin bn pt b0) =>
            let entry := if pt then Value.builtin bn pt (some i)
                         else Value.builtin bn pt b0
            (.ok entry, cacheAdd st i m entry)
          | _ => (.err ("Undefined property '" ++ m ++ "'."), st)
  | .cls cname members =>
    match alGet members m with
    | some v => (.ok v, st)
    | none =>
      (.err ("'" ++ cname ++ "' has no static member '" ++ m ++ "'"), st)
  | _ => (.err "Cannot access member of non-class value", st)

/-- `str.startswith(pre)` on character lists (kernel-computable). -/
def strHasPrefix (s pre : String) : Bool := pre.toList.isPrefixOf s.toList

/-- `str.endswith(suf)` on character lists (kernel-computable). -/
def strHasSuffix (s suf : String) : Bool :=
  suf.toList.reverse.isPrefixOf s.toList.reverse

/-- `_eval_ImportNode` path construction from the module name and the
configured stdlib directory (`os.path.join` with the `.xor` default
extension). -/
def importPath (stdlibPath moduleName : String) : String :=
  if strHasPrefix moduleName "stdlib/" then
    let rel := String.mk (moduleName.toList.drop 7)
    if strHasSuffix rel ".xor" then stdlibPath ++ "/" ++ rel
    else stdlibPath ++ "/" ++ rel ++ ".xor"
  else
    if strHasSuffix moduleName ".xor" then stdlibPath ++ "/" ++ moduleName
    else stdlibPath ++ "/" ++ moduleName ++ ".xor"

/-- Substring test on character lists (Python `'..' in module_name`). -/
def hasSub (pat : List Char) : List Char → Bool
  | [] => pat.isPrefixOf []
  | c :: rest => pat.isPrefixOf (c :: rest) || hasSub pat rest

/-- Parser fuel that is ample for any token stream (the Python parser
always terminates; between two consumed tokens it makes a bounded number of
nested calls). -/
def pFuel (ts : List Token) : Nat := 100 * ts.length + 100

mutual

/-- `Interpreter.eval`: dispatch on the node variant, mirroring the
`_eval_*` methods one case each. Fuel decreases on every nested evaluation;
`Res.fuelOut` stands for a computation the Python interpreter would still
be running. -/
def eval : Nat → Node → Nat → St → Res × St
  | 0, _, _, st => (.fuelOut, st)
  | fuel + 1, node, env, st =>
    match node with
    | .block stmts => evalBlockStmts fuel stmts .null env st
    | .exprStmt e => eval fuel e env st
    | .num (.i n) => (.ok (.int n), st)
    | .num (.f q) => (.ok (.float q), st)
    | .num _ => (.err "invalid number literal", st)
    | .strLit s => (.ok (.str s), st)
    | .boolLit s => (.ok (.bool (s = "true")), st)
    | .nullLit => (.ok .null, st)
    | .varAccess n =>
      (match envGet st env n with
       | (.ok v, st) => (.ok v, st)
       | (.error msg, st) => (.err msg, st))
    | .memberAccess objN m =>
      (match eval fuel objN env st with
       | (.ok obj, st) => evalMember obj m st
       | r => r)
    | .varDecl n init =>
      (match (match init with
              | some e => eval fuel e env st
              | none => (.ok .null, st)) with
       | (.ok v, st) => (.ok v, envDefine st env n v)
       | r => r)
    | .assign target expr =>
      (match target with
       | .memberAccess objN m =>
         (match eval fuel objN env st with
          | (.ok obj, st) =>
            (match obj with
             | .inst i =>
               (match eval fuel expr env st with
                | (.ok v, st) => (.ok v, instSetField st i m v)
                | r => r)
             | _ => (.err "Cannot assign to member of non-instance", st))
          | r => r)
       | .varAccess n =>
         (match eval fuel expr env st with
          | (.ok v, st) => (.ok v, envSet st env n v)
          | r => r)
       | _ => (.err "Invalid assignment target", st))
    | .importStmt mn => evalImportNode fuel mn st
    | .thisExpr =>
      (match envGet st env "this" with
       | (.ok v, st) => (.ok v, st)
       | (.error _, st) => (.err "'this' is not defined in this context", st))
    | .unaryOp op e =>
      (match eval fuel e env st with
       | (.ok v, st) =>
         (match unaryOpApply op v with
          | .ok v2 => (.ok v2, st)
          | .error msg => (.err msg, st))
       | r => r)
    | .binOp op le re =>
      (match eval fuel le env st with
       | (.ok lv, st) =>
         (match eval fuel re env st with
          | (.ok rv, st) =>
            (match binOpApply op lv rv with
             | .ok v => (.ok v, st)
             | .error msg => (.err msg, st))
          | r => r)
       | r => r)
    | .call calleeN argNs =>
      (match eval fuel calleeN env st with
       | (.ok callee, st) =>
         (match evalArgs fuel argNs env st with
          | (.ok args, st) => callValue fuel callee args st
          | (.error r, st) => (r, st))
       | r => r)
    | .ifStmt cases els => evalIfCases fuel cases els env st
    | .whileStmt c b => whileLoop fuel c b env st
    | .forStmt initN condN updateN body =>
      let (le, st) := allocEnv st (some env)
      (match (match initN with
              | some i => eval fuel i le st
              | none => (.ok .null, st)) with
       | (.ok _, st) => forLoop fuel condN updateN body le st
       | r => r)
    | .funcDef name params body =>
      let fn := Value.closure name params body env
      (match name with
       | some n => (.ok fn, envDefine st env n fn)
       | none => (.ok fn, st))
    | .ret e =>
      (match e with
       | some ex =>
         (match eval fuel ex env st with
          | (.ok v, st) => (.retSig v, st)
          | r => r)
       | none => (.retSig .null, st))
    | .classDef name members =>
      let (ce, st) := allocEnv st (some env)
      (match evalClassMembers fuel members ce st with
       | (.ok _, st) =>
         let vals := (st.envs[ce]?.map (·.values)).getD []
         let c := Value.cls name vals
         (.ok c, envDefine st env name c)
       | r => r)
    | .newExpr cname argNs =>
      (match envGet st env cname with
       | (.ok v, st) =>
         (match v with
          | .cls cn members =>
            (match evalArgs fuel argNs env st with
             | (.ok args, st) => instantiate fuel cn members args st
             | (.error r, st) => (r, st))
          | _ => (.err ("'" ++ cname ++ "' is not a class."), st))
       | (.error msg, st) => (.err msg, st))
  termination_by structural f _ _ _ => f

/-- `_eval_BlockNode`: statements in sequence, value of the last one
(`None` for an empty block); errors and signals abort the sequence. -/
def evalBlockStmts : Nat → List Node → Value → Nat → St → Res × St
  | 0, _, _, _, st => (.fuelOut, st)
  | _ + 1, [], last, _, st => (.ok last, st)
  | fuel + 1, s :: rest, _, env, st =>
    match eval fuel s env st with
    | (.ok v, st) => evalBlockStmts fuel rest v env st
    | r => r
  termination_by structural f _ _ _ _ => f

/-- Left-to-right evaluation of call arguments; any non-`ok` outcome
propagates. -/
def evalArgs : Nat → List Node → Nat → St → Except Res (List Value) × St
  | 0, _, _, st => (.error .fuelOut, st)
  | _ + 1, [], _, st => (.ok [], st)
  | fuel + 1, a :: rest, env, st =>
    match eval fuel a env st with
    | (.ok v, st) =>
      (match evalArgs fuel rest env st with
       | (.ok vs, st) => (.ok (v :: vs), st)
       | r => r)
    | (r, st) => (.error r, st)
  termination_by structural f _ _ _ => f

/-- `_eval_IfNode`: first truthy case wins, else the else-block, else
`None`. -/
def evalIfCases : Nat → List (Node × Node) → Option Node → Nat → St → Res × St
  | 0, _, _, _, st => (.fuelOut, st)
  | fuel + 1, [], els, env, st =>
    (match els with
     | some b => eval fuel b env st
     | none => (.ok .null, st))
  | fuel + 1, (c, b) :: rest, els, env, st =>
    match eval fuel c env st with
    | (.ok v, st) =>
      if truthy v then eval fuel b env st
      else evalIfCases fuel rest els env st
    | r => r
  termination_by structural f _ _ _ _ => f

/-- `_eval_WhileNode`: re-evaluate the condition before each iteration,
result `None`. -/
def whileLoop : Nat → Node → Node → Nat → St → Res × St
  | 0, _, _, _, st => (.fuelOut, st)
  | fuel + 1, c, b, env, st =>
    match eval fuel c env st with
    | (.ok v, st) =>
      if truthy v then
        match eval fuel b env st with
        | (.ok _, st) => whileLoop fuel c b env st
        | r => r
      else (.ok .null, st)
    | r => r
  termination_by structural f _ _ _ _ => f

/-- The `while True` loop of `_eval_ForNode`, entered after the one-time
creation of the loop environment and the init clause: check the condition
(when present), run the body, run the update, and — when the condition is
absent — break after this single iteration. -/
def forLoop : Nat → Option Node → Option Node → Node → Nat → St → Res × St
  | 0, _, _, _, _, st => (.fuelOut, st)
  | fuel + 1, condN, updateN, body, le, st =>
    match condN with
    | some c =>
      (match eval fuel c le st with
       | (.ok cv, st) =>
         if truthy cv then
           match eval fuel body le st with
           | (.ok _, st) =>
             (match (match updateN with
                     | some u => eval fuel u le st
                     | none => (.ok .null, st)) with
              | (.ok _, st) => forLoop fuel (some c) updateN body le st
              | r => r)
           | r => r
         else (.ok .null, st)
       | r => r)
    | none =>
      match eval fuel body le st with
      | (.ok _, st) =>
        (match (match updateN with
                | some u => eval fuel u le st
                | none => (.ok .null, st)) with
         | (.ok _, st) => (.ok .null, st)
         | r => r)
      | r => r
  termination_by structural f _ _ _ _ _ => f

/-- The member loop of `_eval_ClassDefNode`: each `FuncDef` member is
evaluated in the class environment (defining itself there) and then
defined once more from the loop. -/
def evalClassMembers : Nat → List Node → Nat → St → Res × St
  | 0, _, _, st => (.fuelOut, st)
  | _ + 1, [], _, st => (.ok .null, st)
  | fuel + 1, m :: rest, ce, st =>
    match eval fuel m ce st with
    | (.ok fv, st) =>
      let st := match fv with
        | .closure (some n) _ _ _ => envDefine st ce n fv
        | _ => st
      evalClassMembers fuel rest ce st
    | r => r
  termination_by structural f _ _ _ => f

/-- `_eval_CallNode` dispatch on the callee kind. Native built-ins are host
callables outside the core (spec §6) and are not modelled. -/
def callValue : Nat → Value → List Value → St → Res × St
  | 0, _, _, st => (.fuelOut, st)
  | fuel + 1, callee, args, st =>
    match callee with
    | .builtin _ _ _ => (.err "native function call is outside the modelled core", st)
    | .closure name params body clo =>
      evalFunctionCall fuel name params body clo args st
    | .cls cname members => instantiate fuel cname members args st
    | _ => (.err "value is not callable", st)
  termination_by structural f _ _ _ => f

/-- `_eval_function_call`: exact arity check, a fresh child environment of
the closure, positional parameter binding, and the body's value — a raised
`ReturnSignal` is caught and its payload returned; with no `return`, the
body's (last statement's) value is returned. -/
def evalFunctionCall : Nat → Option String → List String → Node → Nat →
    List Value → St → Res × St
  | 0, _, _, _, _, _, st => (.fuelOut, st)
  | fuel + 1, name, params, body, clo, args, st =>
    if args.length ≠ params.length then
      (.err ("Function '" ++ name.getD "None" ++ "' expects " ++
        toString params.length ++ " arguments, got " ++
        toString args.length), st)
    else
      let (fe, st) := allocEnv st (some clo)
      let st := (params.zip args).foldl
        (fun st pa => envDefine st fe pa.1 pa.2) st
      match eval fuel body fe st with
      | (.retSig v, st) => (.ok v, st)
      | r => r
  termination_by structural f _ _ _ _ _ _ => f

/-- `ClassValue.__call__`: create the instance, then — when an `init`
member exists and is a user function — invoke it with `this` bound to the
new instance, discarding its result; the instance is the value of the
expression. A native `pass_this` initializer belongs to the unmodelled
built-in layer. -/
def instantiate : Nat → String → List (String × Value) → List Value → St →
    Res × St
  | 0, _, _, _, st => (.fuelOut, st)
  | fuel + 1, cname, members, args, st =>
    let i := st.insts.length
    let st := { st with insts := st.insts ++ [⟨cname, members, []⟩] }
    match alGet members "init" with
    | some (.closure n ps body clo) =>
      let (be, st) := allocEnv st (some clo)
      let st := envDefine st be "this" (.inst i)
      (match evalFunctionCall fuel n ps body be args st with
       | (.ok _, st) => (.ok (.inst i), st)
       | r => r)
    | some (.builtin _ true _) =>
      (.err "native initializer is outside the modelled core", st)
    | _ => (.ok (.inst i), st)
  termination_by structural f _ _ _ _ => f

/-- `_eval_ImportNode`: the `..`/leading-`/` traversal guard, path
construction against the stdlib directory, file lookup, and module
evaluation. There is no cache of already-imported modules. -/
def evalImportNode : Nat → String → St → Res × St
  | 0, _, st => (.fuelOut, st)
  | fuel + 1, mn, st =>
    if hasSub "..".toList mn.toList || strHasPrefix mn "/" then
      (.err ("Import error: Invalid module path '" ++ mn ++ "'"), st)
    else
      match alGet st.fs (importPath st.stdlibPath mn) with
      | none =>
        (.err ("Import error: File '" ++ mn ++ "' not found at '"
          ++ importPath st.stdlibPath mn ++ "'"), st)
      | some src => evalModule fuel (importPath st.stdlibPath mn) src st
  termination_by structural f _ _ => f

/-- `_eval_module`: a fresh top-level environment (no parent), lex and
parse the module source (failures become wrapped runtime errors), evaluate
the body in the fresh environment, and return that environment as the
namespace value. -/
def evalModule : Nat → String → String → St → Res × St
  | 0, _, _, st => (.fuelOut, st)
  | fuel + 1, path, src, st =>
    let (me, st) := allocEnv st none
    match lexRun src with
    | .error e =>
      (.err ("Lexer error in module " ++ path ++ ": " ++ e.render), st)
    | .ok toks =>
      match pParse (pFuel toks) toks with
      | .error (.syntaxErr m) =>
        (.err ("Parser error in module " ++ path ++ ": Syntax error: " ++ m), st)
      | .error .fuelOut =>
        (.err ("Parser error in module " ++ path), st)
      | .ok ast =>
        match eval fuel ast me st with
        | (.ok _, st) => (.ok (.envV me), st)
        | r => r
  termination_by structural f _ _ _ => f

end

end XorLang

namespace XorLang

/-! ## Interpreter construction and runner (`interpreter.py` `__init__`,
`runner.py`)

`Interpreter.__init__` installs the built-in registry and the `Array`
class into the global environment and then attempts to load the standard
library files (`prelude.xor`, `core.xor`, ...); the packaged
`xorlang/stdlib` directory of this repository contains no `.xor` files, so
`_load_all_stdlib` finds none of them and loads nothing. -/

/-- Member table of the built-in `Array` class: `pass_this` native
entries. -/
def arrayClassMembers : List (String × Value) :=
  ["init", "push", "pop", "get", "set", "length", "removeAt", "clear",
   "contains", "indexOf", "forEach", "join"].map
    (fun n => (n, Value.builtin n true none))

/-- The names defined by `_install_builtins`, in installation order, each
bound to a native registry entry, followed by the `Array` class. -/
def builtinBindings : List (String × Value) :=
  (["print", "input", "time_now", "time_ms", "sleep", "len", "ord", "chr",
    "__str_get__", "http_get", "http_get_status", "gui_create_window",
    "gui_add_label", "gui_add_button", "gui_show_window",
    "__math_sin", "__math_cos", "__math_tan", "__math_asin", "__math_acos",
    "__math_atan", "__math_atan2", "__math_sqrt", "__math_pow",
    "__math_floor", "__math_ceil", "__math_round", "__math_random",
    "__math_log", "__math_exp",
    "__file_exists", "__file_read", "__file_write", "__os_getenv",
    "__os_listdir"].map (fun n => (n, Value.builtin n false none)))
  ++ [("Array", Value.cls "Array" arrayClassMembers)]

/-- A fresh `Interpreter`: environment 0 is the global environment with
the built-ins defined into it; the stores are otherwise empty. `fs` is the
file system visible to the module loader. -/
def initState (fs : List (String × String)) : St :=
  let g := builtinBindings.foldl
    (fun fr nv =>
      { fr with values := alSet fr.values nv.1 nv.2,
                version := fr.version + 1 })
    (emptyFrame none)
  { envs := [g], insts := [], methodCache := [], fs := fs,
    stdlibPath := "stdlib" }

/-- Lex + parse + evaluate against a given state, exposing the final
outcome and state (`none` when lexing or parsing fails). Used to observe
interpreter-state effects in the theorems below. -/
def runEval (fuel : Nat) (src : String) (st : St) (env : Nat) :
    Option (Res × St) :=
  match lexRun src with
  | .error _ => none
  | .ok toks =>
    match pParse (pFuel toks) toks with
    | .error _ => none
    | .ok ast => some (eval fuel ast env st)

/-- `runner._load_and_eval`: tokenize, parse, interpret; each phase's
failure is rendered into the error slot. The result is `none` exactly when
evaluation runs out of fuel — the stand-in for a Python run that has not
returned. -/
def loadAndEval (fuel : Nat) (src : String) (st : St) (env : Nat) :
    Option (Option Value × Option String) :=
  match lexRun src with
  | .error e => some (none, some e.render)
  | .ok toks =>
    match pParse (pFuel toks) toks with
    | .error (.syntaxErr m) =>
      some (none, some ("ParseError: Syntax error: " ++ m))
    | .error .fuelOut => some (none, some "ParseError: fuel exhausted")
    | .ok ast =>
      match eval fuel ast env st with
      | (.ok v, _) => some (some v, none)
      | (.err m, _) =>
        some (none, some ("RuntimeError: Runtime error: " ++ m))
      | (.retSig _, _) =>
        some (none, some "RuntimeError: 'return' used outside of a function")
      | (.fuelOut, _) => none

/-- `runner.run_program(filename, source_code)`: construct a fresh
interpreter and run the program in its global environment. The filename
feeds only diagnostics and is not modelled. -/
def runProgram (fuel : Nat) (src : String) :
    Option (Option Value × Option String) :=
  loadAndEval fuel src (initState []) 0

end XorLang

namespace XorLang

/-! ## Supporting definitions and lemmas for the claim theorems -/

/-- The cache-independent part of a frame: parent link and value dict
(`resolve` reads only these). -/
def frameCore (fr : Frame) : Option Nat × List (String × Value) :=
  (fr.parent, fr.values)

set_option maxRecDepth 1000000

theorem alGet_alSet_self {α : Type} (l : List (String × α)) (k : String) (v : α) :
    alGet (alSet l k v) k = some v := by
  induction l with
  | nil => simp [alGet, alSet]
  | cons p rest ih =>
    by_cases h : p.1 = k
    · simp [alSet, h, alGet]
    · simp only [alSet, if_neg h]
      simpa [alGet, List.find?, h] using ih

theorem envResolveAux_congr (l1 l2 : List Frame)
    (h : ∀ i : Nat, l1[i]?.map frameCore = l2[i]?.map frameCore) :
    ∀ b e n, envResolveAux b l1 e n = envResolveAux b l2 e n := by
  intro b
  induction b with
  | zero => intro e n; rfl
  | succ b ih =>
    intro e n
    have he := h e
    cases h1 : l1[e]? with
    | none =>
      cases h2 : l2[e]? with
      | none => simp [envResolveAux, h1, h2]
      | some fr2 => rw [h1, h2] at he; simp at he
    | some fr1 =>
      cases h2 : l2[e]? with
      | none => rw [h1, h2] at he; simp at he
      | some fr2 =>
        rw [h1, h2] at he
        simp only [Option.map_some'] at he
        have heq : frameCore fr1 = frameCore fr2 := by injection he
        have hp : fr1.parent = fr2.parent := congrArg Prod.fst heq
        have hv : fr1.values = fr2.values := congrArg Prod.snd heq
        simp only [envResolveAux, h1, h2, hv, hp]
        split
        · rfl
        · cases fr2.parent with
          | none => rfl
          | some p => exact ih p n

theorem length_eq_of_core (l1 l2 : List Frame)
    (h : ∀ i : Nat, l1[i]?.map frameCore = l2[i]?.map frameCore) :
    l1.length = l2.length := by
  have hnone : ∀ i : Nat, l1[i]? = none ↔ l2[i]? = none := by
    intro i
    have hi := h i
    constructor
    · intro hh; rw [hh] at hi; simpa using hi.symm
    · intro hh; rw [hh] at hi; simpa using hi
  apply Nat.le_antisymm
  · exact List.getElem?_eq_none_iff.mp
      ((hnone l2.length).mpr (List.getElem?_eq_none_iff.mpr (Nat.le_refl _)))
  · exact List.getElem?_eq_none_iff.mp
      ((hnone l1.length).mp (List.getElem?_eq_none_iff.mpr (Nat.le_refl _)))

theorem envResolve_congr (st1 st2 : St) (e : Nat) (n : String)
    (h : ∀ i : Nat, st1.envs[i]?.map frameCore = st2.envs[i]?.map frameCore) :
    envResolve st1 e n = envResolve st2 e n := by
  unfold envResolve
  rw [length_eq_of_core _ _ h, envResolveAux_congr _ _ h]

theorem envResolveAux_some_spec :
    ∀ b (l : List Frame) e n a, envResolveAux b l e n = some a →
      ∃ fra, l[a]? = some fra ∧ (alGet fra.values n).isSome := by
  intro b
  induction b with
  | zero => intro l e n a h; simp [envResolveAux] at h
  | succ b ih =>
    intro l e n a h
    rw [envResolveAux] at h
    split at h
    · simp at h
    next fr hge =>
      split at h
      next hs =>
        injection h with h
        subst h
        exact ⟨fr, hge, hs⟩
      next hs =>
        split at h
        next p hp => exact ih l p n a h
        next => simp at h

theorem envGetMiss_spec (st : St) (c : Nat) (n : String) (fr : Frame) (v : Value)
    (st1 : St) (hc : st.envs[c]? = some fr)
    (h : envGetMiss st c n fr = (.ok v, st1)) :
    st1.envs[c]? = some { fr with cache := alSet fr.cache n (v, fr.version) } ∧
    (∀ i, i ≠ c → st1.envs[i]? = st.envs[i]?) ∧
    st1.envs.length = st.envs.length := by
  have hlt : c < st.envs.length := (List.getElem?_eq_some_iff.mp hc).choose
  unfold envGetMiss at h
  split at h
  · simp at h
  next a hres =>
    simp only [Prod.mk.injEq] at h
    obtain ⟨h1, h2⟩ := h
    injection h1 with h1
    subst h1
    refine ⟨?_, ?_, ?_⟩
    · rw [← h2]; simp only [setFrame]
      exact List.getElem?_set_self hlt
    · intro i hi
      rw [← h2]; simp only [setFrame]
      exact List.getElem?_set_ne (fun hh => hi hh.symm)
    · rw [← h2]; simp [setFrame]

theorem envGet_ok_spec (st : St) (c : Nat) (n : String) (v : Value) (st1 : St)
    (h : envGet st c n = (.ok v, st1)) :
    ∃ fr fr1, st.envs[c]? = some fr ∧ st1.envs[c]? = some fr1 ∧
      fr1.parent = fr.parent ∧ fr1.values = fr.values ∧
      fr1.version = fr.version ∧
      alGet fr1.cache n = some (v, fr1.version) ∧
      (∀ i, i ≠ c → st1.envs[i]? = st.envs[i]?) ∧
      st1.envs.length = st.envs.length := by
  unfold envGet at h
  split at h
  · simp at h
  next fr hc =>
    split at h
    next v0 ver hcache =>
      split at h
      next hver =>
        simp only [Prod.mk.injEq] at h
        obtain ⟨h1, h2⟩ := h
        injection h1 with h1
        subst h1; subst h2
        exact ⟨fr, fr, hc, hc, rfl, rfl, rfl, by rw [hcache, hver],
          fun i _ => rfl, rfl⟩
      next =>
        obtain ⟨hc1, hother, hlen⟩ := envGetMiss_spec st c n fr v st1 hc h
        exact ⟨fr, _, hc, hc1, rfl, rfl, rfl, by exact alGet_alSet_self _ _ _,
          hother, hlen⟩
    next hcache =>
      obtain ⟨hc1, hother, hlen⟩ := envGetMiss_spec st c n fr v st1 hc h
      exact ⟨fr, _, hc, hc1, rfl, rfl, rfl, by exact alGet_alSet_self _ _ _,
        hother, hlen⟩

end XorLang

namespace XorLang

/-! ## Claim theorems -/

set_option maxRecDepth 1000000

/-- Claim C1. Contrary to the specification, `Lexer.make_tokens` does
**not** handle `import "path"` inline: `lexGo` (the faithful embedding of
the `make_tokens` loop, which performs no file access at all) tokenizes the
directive as the keyword token `import` followed by the string token of the
path — nothing is opened, recursively lexed, or spliced, whatever the file
system contains. (`Lexer.handle_import` implements the splicing but is
never invoked from `make_tokens`.) -/
theorem makeTokens_keeps_import_directive :
    lexRun "import \"m\"" = .ok
      [⟨.keyword, .s "import"⟩, ⟨.string, .s "m"⟩, ⟨.eof, .none⟩] := rfl

/-- Claim C2, counterexample. Evaluating `import m` twice on one
interpreter state (module `m` = `var c = 1;` in the stdlib directory) is
not idempotent: the first import returns environment 1, the second returns
the distinct, freshly populated environment 2 (unequal even under the
language's own `==`, `pyEq`), and after the second import **both**
environments contain `c = 1` — the module's top-level statement executed
once per import, not once in total. -/
theorem import_twice_reexecutes_module :
    (let st0 := initState [("stdlib/m.xor", "var c = 1;")]
     let p1 := eval 50 (.importStmt "m") 0 st0
     let p2 := eval 50 (.importStmt "m") 0 p1.2
     p1.1 = .ok (.envV 1) ∧ p2.1 = .ok (.envV 2)
     ∧ pyEq (.envV 1) (.envV 2) = false
     ∧ p2.2.envs[1]?.map (fun fr => alGet fr.values "c") = some (some (.int 1))
     ∧ p2.2.envs[2]?.map (fun fr => alGet fr.values "c") = some (some (.int 1))) :=
  ⟨rfl, rfl, rfl, rfl, rfl⟩

/-- Claim C2, amended. `_eval_ImportNode` keeps no cache: every
successful import returns a module environment allocated by that very
call — its id is the environment-store size just before the call — so a
repeated import of the same module re-reads, re-parses and re-executes it
into a fresh namespace instead of returning a cached one. -/
theorem import_returns_fresh_environment (fuel : Nat) (mn : String) (st : St)
    (v : Value) (st2 : St)
    (h : evalImportNode fuel mn st = (.ok v, st2)) :
    v = .envV st.envs.length := by
  match fuel with
  | 0 => simp [evalImportNode] at h
  | fuel + 1 =>
    rw [evalImportNode] at h
    split at h
    · simp at h
    · split at h
      · simp at h
      next src hsrc =>
        match fuel with
        | 0 => simp [evalModule] at h
        | g + 1 =>
          rw [evalModule] at h
          simp only [allocEnv] at h
          repeat' split at h
          all_goals simp_all

/-- Claim C2, witness for `import_returns_fresh_environment`. -/
theorem import_returns_fresh_environment_witness :
    evalImportNode 50 "m" (initState [("stdlib/m.xor", "var c = 1;")]) =
      (.ok (.envV 1),
        (evalImportNode 50 "m" (initState [("stdlib/m.xor", "var c = 1;")])).2)
    ∧ Value.envV 1 =
        .envV (initState [("stdlib/m.xor", "var c = 1;")]).envs.length :=
  ⟨rfl, import_returns_fresh_environment 50 "m"
    (initState [("stdlib/m.xor", "var c = 1;")]) (.envV 1)
    (evalImportNode 50 "m" (initState [("stdlib/m.xor", "var c = 1;")])).2 rfl⟩

/-- Claim C3. The lexer turns `%` into a `TT_MOD` token, but
`Parser.factor` (`pFactor`) accepts only `*` and `/`: on the token stream
of `7 % 3;` the factor level stops in front of the `%` token, and the whole
parse fails with the generic primary-level syntax error instead of
producing a `BinOp` modulo node. -/
theorem factor_rejects_modulo_token :
    lexRun "7 % 3;" = .ok
      [⟨.int, .i 7⟩, ⟨.mod, .none⟩, ⟨.int, .i 3⟩, ⟨.semi, .none⟩, ⟨.eof, .none⟩]
    ∧ pFactor 1000 [⟨.int, .i 7⟩, ⟨.mod, .none⟩, ⟨.int, .i 3⟩, ⟨.eof, .none⟩]
        = .ok (.num (.i 7), [⟨.mod, .none⟩, ⟨.int, .i 3⟩, ⟨.eof, .none⟩])
    ∧ pParse 1000
        [⟨.int, .i 7⟩, ⟨.mod, .none⟩, ⟨.int, .i 3⟩, ⟨.semi, .none⟩, ⟨.eof, .none⟩]
        = .error (.syntaxErr
          "Expected int, float, string, identifier, 'true', 'false', 'null', or '('") :=
  ⟨rfl, rfl, rfl⟩

/-- Claim C4. `_eval_BinOpNode` arithmetic (`binOpApply`): integer ⊕
integer stays an integer for `+`/`-`/`*`/`%`, division always produces a
float, any float operand promotes the result to float, and a zero right
operand of `/` (including `0.0`) or `%` raises the runtime error whose
message is exactly `Division by zero` / `Modulo by zero` — and through the
whole pipeline, `2 + 3` gives the integer 5, `15 / 3` the float 5.0, and
`10 / 0` the reported division-by-zero RuntimeError. -/
theorem binOp_promotion_and_zero_errors :
    (∀ a b : Int, binOpApply .plus (.int a) (.int b) = .ok (.int (a + b)))
    ∧ (∀ a b : Int, binOpApply .minus (.int a) (.int b) = .ok (.int (a - b)))
    ∧ (∀ a b : Int, binOpApply .mul (.int a) (.int b) = .ok (.int (a * b)))
    ∧ (∀ a b : Int, b ≠ 0 →
        binOpApply .div (.int a) (.int b) = .ok (.float ((a : ℚ) / (b : ℚ))))
    ∧ (∀ a b : Int, b ≠ 0 →
        binOpApply .mod (.int a) (.int b) = .ok (.int (Int.fmod a b)))
    ∧ (∀ (a : Int) (q : ℚ),
        binOpApply .plus (.int a) (.float q) = .ok (.float (a + q)))
    ∧ (∀ (q : ℚ) (a : Int),
        binOpApply .plus (.float q) (.int a) = .ok (.float (q + a)))
    ∧ (∀ (q : ℚ) (a : Int),
        binOpApply .mul (.float q) (.int a) = .ok (.float (q * a)))
    ∧ (∀ v : Value, binOpApply .div v (.int 0) = .error "Division by zero")
    ∧ (∀ v : Value, binOpApply .div v (.float 0) = .error "Division by zero")
    ∧ (∀ v : Value, binOpApply .mod v (.int 0) = .error "Modulo by zero")
    ∧ runProgram 100 "2 + 3;" = some (some (.int 5), none)
    ∧ runProgram 100 "15 / 3;" = some (some (.float 5), none)
    ∧ runProgram 100 "10 / 0;" =
        some (none, some "RuntimeError: Runtime error: Division by zero") := by
  refine ⟨fun a b => rfl, fun a b => rfl, fun a b => rfl, ?_, ?_,
    fun a q => rfl, fun q a => rfl, fun q a => rfl,
    fun v => rfl, fun v => rfl, fun v => rfl, rfl, ?_, rfl⟩
  · intro a b hb
    simp [binOpApply, pyDiv, asNumQ, Int.cast_eq_zero, hb]
  · intro a b hb
    simp only [binOpApply, pyMod, asNumQ]
    rw [if_neg (by simp [Int.cast_eq_zero, hb])]
    rfl
  · with_unfolding_all rfl

/-- Claim C4, witness for `binOp_promotion_and_zero_errors`. -/
theorem binOp_promotion_and_zero_errors_witness :
    ((3 : Int) ≠ 0 ∧ binOpApply .div (.int 15) (.int 3) =
        .ok (.float (((15 : Int) : ℚ) / ((3 : Int) : ℚ))))
    ∧ ((3 : Int) ≠ 0 ∧ binOpApply .mod (.int 10) (.int 3) =
        .ok (.int (Int.fmod 10 3))) :=
  ⟨⟨by decide, binOp_promotion_and_zero_errors.2.2.2.1 15 3 (by decide)⟩,
   ⟨by decide, binOp_promotion_and_zero_errors.2.2.2.2.1 10 3 (by decide)⟩⟩

/-- Claim C5. Contrary to the field-map-first specification,
`_eval_MemberAccessNode` consults the never-invalidated `_method_cache`
before the instance's fields: in
`class C { init: this.n = 1 }; var o = new C(); o.n; o.n = 2; o.n;` the
final read returns the stale cached `1` even though the assignment did
update the field map to `2` (and the cache still holds `1`). -/
theorem member_read_after_assign_returns_stale_cache :
    ((runEval 200
        "class C \x7b func init() \x7b this.n = 1; \x7d \x7d var o = new C(); o.n; o.n = 2; o.n;"
        (initState []) 0).map
      (fun p => (p.1, p.2.insts[0]?.map (·.fields), mcGet p.2.methodCache 0 "n")))
    = some (.ok (.int 1), some [("n", .int 2)], some (.int 1)) := rfl

/-- Claim C6. `_eval_ForNode`: (1) with no condition clause, evaluating a
`for` is exactly — for every init/update/body and every state —
allocating **one** child environment, running init once, the body once and
the update once in it, and terminating with Null (the order
condition-check, body, update is the order of the clauses in this
equation); (2) the five-iteration sum loop leaves `sum = 15` while the
environment store has grown by exactly one frame for the entire loop; (3) a
loop whose condition is initially false runs its body zero times —
the condition is checked before the body. -/
theorem for_single_env_init_once_single_iteration :
    (∀ (fuel : Nat) (initN updateN : Option Node) (body : Node) (env : Nat)
        (st : St),
      eval (fuel + 2) (.forStmt initN none updateN body) env st =
        (let p := allocEnv st (some env)
         match (match initN with
                | some i => eval (fuel + 1) i p.1 p.2
                | none => (.ok .null, p.2)) with
         | (.ok _, st2) =>
           (match eval fuel body p.1 st2 with
            | (.ok _, st3) =>
              (match (match updateN with
                      | some u => eval fuel u p.1 st3
                      | none => (.ok .null, st3)) with
               | (.ok _, st4) => (.ok .null, st4)
               | r => r)
            | r => r)
         | r => r))
    ∧ ((runEval 300
          "var sum = 0; for (var i = 1; i <= 5; i = i + 1) \x7b sum = sum + i; \x7d sum;"
          (initState []) 0).map (fun p => (p.1, p.2.envs.length)))
        = some (.ok (.int 15), 2)
    ∧ ((runEval 100
          "var s = 0; for (var i = 0; i < 0; i = i + 1) \x7b s = 1; \x7d s;"
          (initState []) 0).map (·.1)) = some (.ok (.int 0)) :=
  ⟨fun _ _ _ _ _ _ => rfl, rfl, rfl⟩

/-- Claim C7, counterexample. The program `var x = 1; { var x = 2; } x;`
does **not** parse: `Parser.statement` has no case for a bare `{` block, so
the claimed evaluation to 1 never happens. -/
theorem nested_block_program_rejected :
    (match lexRun "var x = 1; \x7b var x = 2; \x7d x;" with
     | .ok ts =>
       match pParse (pFuel ts) ts with
       | .ok _ => true
       | .error _ => false
     | .error _ => true) = false := rfl

/-- Claim C7, amended. Lexing the program `var x = 1; { var x = 2; } x;`
succeeds, but parsing fails with the primary-level syntax error at the
`{` token: standalone brace blocks are not statements in this parser. -/
theorem nested_block_program_parse_error :
    (match lexRun "var x = 1; \x7b var x = 2; \x7d x;" with
     | .ok ts => pParse (pFuel ts) ts
     | .error e => .error (.syntaxErr e.render))
    = .error (.syntaxErr
      "Expected int, float, string, identifier, 'true', 'false', 'null', or '('") := rfl

/-- Claim C8. On a chain where `n` is bound nowhere (`resolve` fails) and
the calling frame has no currently-valid cache entry for `n`:
`Environment.get` raises `RuntimeError("Undefined variable 'n'")` — naming
the variable, never silently yielding Null — and leaves the state
untouched, while `Environment.set` does not error: it defines `n` in
exactly the frame `set` was called on (bumping only that frame's version)
and leaves every other frame unchanged. -/
theorem env_get_undefined_errors_and_set_defines_locally
    (st : St) (e : Nat) (n : String) (v : Value) (fr : Frame)
    (h1 : st.envs[e]? = some fr)
    (h2 : match alGet fr.cache n with
          | some (_, ver) => ver ≠ fr.version
          | none => True)
    (h3 : envResolve st e n = none) :
    envGet st e n = (.error ("Undefined variable '" ++ n ++ "'"), st)
    ∧ (envSet st e n v).envs[e]? =
        some { fr with values := alSet fr.values n v,
                       version := fr.version + 1 }
    ∧ ∀ e2, e2 ≠ e → (envSet st e n v).envs[e2]? = st.envs[e2]? := by
  have hlt : e < st.envs.length := (List.getElem?_eq_some_iff.mp h1).choose
  have hmiss : envGetMiss st e n fr =
      (.error ("Undefined variable '" ++ n ++ "'"), st) := by
    unfold envGetMiss
    rw [h3]
  refine ⟨?_, ?_, ?_⟩
  · unfold envGet
    simp only [h1]
    cases hcache : alGet fr.cache n with
    | none => simp only [hcache]; exact hmiss
    | some p =>
      obtain ⟨v0, ver⟩ := p
      have hne : ver ≠ fr.version := by
        rw [hcache] at h2; exact h2
      simp only [hcache, if_neg hne]
      exact hmiss
  · unfold envSet
    simp only [h3, h1, setFrame]
    exact List.getElem?_set_self hlt
  · intro e2 he2
    unfold envSet
    simp only [h3, h1, setFrame]
    exact List.getElem?_set_ne (fun hh => he2 hh.symm)

/-- Claim C8, witness for `env_get_undefined_errors_and_set_defines_locally`
at a one-frame store and the unbound name `x`. -/
theorem env_get_undefined_errors_and_set_defines_locally_witness :
    envGet (St.mk [emptyFrame none] [] [] [] "stdlib") 0 "x" =
      (.error "Undefined variable 'x'", St.mk [emptyFrame none] [] [] [] "stdlib")
    ∧ (envSet (St.mk [emptyFrame none] [] [] [] "stdlib") 0 "x" (.int 7)).envs[0]? =
        some (Frame.mk none [("x", .int 7)] [] 1) :=
  ⟨(env_get_undefined_errors_and_set_defines_locally
      (St.mk [emptyFrame none] [] [] [] "stdlib") 0 "x" (.int 7)
      (emptyFrame none) rfl trivial rfl).1,
   (env_get_undefined_errors_and_set_defines_locally
      (St.mk [emptyFrame none] [] [] [] "stdlib") 0 "x" (.int 7)
      (emptyFrame none) rfl trivial rfl).2.1⟩

/-- Claim C9. `run_program`: whenever the modelled run returns at all
(`some r`; fuel exhaustion stands for a run still executing), exactly one
of the result value and the error message is present — every lex, parse and
runtime failure fills only the error slot, and a completed evaluation fills
only the result slot. -/
theorem run_program_exactly_one_of_result_error
    (fuel : Nat) (src : String) (r : Option Value × Option String)
    (h : runProgram fuel src = some r) :
    (r.1.isSome ∧ r.2 = none) ∨ (r.1 = none ∧ r.2.isSome) := by
  unfold runProgram loadAndEval at h
  split at h
  · injection h with h; subst h; simp
  · split at h
    · injection h with h; subst h; simp
    · injection h with h; subst h; simp
    · split at h
      · injection h with h; subst h; simp
      · injection h with h; subst h; simp
      · injection h with h; subst h; simp
      · exact absurd h (by simp)

/-- Claim C9, witness for `run_program_exactly_one_of_result_error` on the
program `2 + 3;`. -/
theorem run_program_exactly_one_of_result_error_witness :
    runProgram 100 "2 + 3;" = some (some (.int 5), none)
    ∧ (((some (Value.int 5) : Option Value).isSome ∧
          (none : Option String) = none)
       ∨ ((some (Value.int 5) : Option Value) = none ∧
          (none : Option String).isSome)) :=
  ⟨rfl, run_program_exactly_one_of_result_error 100 "2 + 3;"
    (some (.int 5), none) rfl⟩

/-- Claim C10. `Environment.get` memoizes per environment against that
environment's own version counter, and `set` resolving to an ancestor bumps
only the ancestor's counter: once a child has read a name owned by an
ancestor, any later `set` of that name through the child is invisible to
the child's subsequent `get`s — the stale value is returned even though the
ancestor's value dict does hold the update. Consequently the loop
`var i = 0; for (; i < 3; i = i + 1) { }`, whose condition reads `i` from
outside the loop environment, keeps reading the pre-update `0` and never
terminates (fuel exhaustion in the model). -/
theorem env_cached_read_misses_ancestor_update :
    (∀ (st : St) (c : Nat) (n : String) (v w : Value) (st1 : St) (a : Nat),
      envGet st c n = (.ok v, st1) →
      envResolve st c n = some a →
      a ≠ c →
      envGet (envSet st1 c n w) c n = (.ok v, envSet st1 c n w)
      ∧ ∃ fra, (envSet st1 c n w).envs[a]? = some fra ∧
          alGet fra.values n = some w)
    ∧ ((runEval 60 "var i = 0; for (; i < 3; i = i + 1) \x7b \x7d i;"
          (initState []) 0).map (·.1)) = some .fuelOut := by
  constructor
  · intro st c n v w st1 a hget hres hac
    obtain ⟨fr, fr1, hc, hc1, hp, hv, hver, hcache, hother, hlen⟩ :=
      envGet_ok_spec st c n v st1 hget
    have hcore : ∀ i : Nat,
        st1.envs[i]?.map frameCore = st.envs[i]?.map frameCore := by
      intro i
      by_cases hi : i = c
      · subst hi; rw [hc1, hc]; simp [frameCore, hp, hv]
      · rw [hother i hi]
    have hres1 : envResolve st1 c n = some a := by
      rw [envResolve_congr st1 st c n hcore]; exact hres
    obtain ⟨fra, hga, _⟩ :=
      envResolveAux_some_spec (st1.envs.length + 1) st1.envs c n a hres1
    have halt : a < st1.envs.length := (List.getElem?_eq_some_iff.mp hga).choose
    have hset : envSet st1 c n w = setFrame st1 a
        { fra with values := alSet fra.values n w,
                   version := fra.version + 1 } := by
      unfold envSet
      simp only [hres1, hga]
    have hc2 : (envSet st1 c n w).envs[c]? = some fr1 := by
      rw [hset]; simp only [setFrame]
      rw [List.getElem?_set_ne hac]; exact hc1
    constructor
    · unfold envGet
      simp only [hc2, hcache]
      simp
    · refine ⟨Frame.mk fra.parent (alSet fra.values n w) fra.cache
        (fra.version + 1), ?_, ?_⟩
      · rw [hset]; simp only [setFrame]
        exact List.getElem?_set_self halt
      · exact alGet_alSet_self fra.values n w
  · rfl

/-- Claim C10, witness for `env_cached_read_misses_ancestor_update` at a
two-frame store: the child reads `i = 0` from the global frame, `set`
through the child writes `5` into the global frame, and the child's next
`get` still returns the stale `0`. -/
theorem env_cached_read_misses_ancestor_update_witness :
    (let stA : St :=
      ⟨[⟨none, [("i", Value.int 0)], [], 0⟩, ⟨some 0, [], [], 0⟩],
        [], [], [], "stdlib"⟩
     envGet stA 1 "i" = (.ok (.int 0), (envGet stA 1 "i").2)
     ∧ (0 : Nat) ≠ 1
     ∧ envGet (envSet (envGet stA 1 "i").2 1 "i" (.int 5)) 1 "i"
         = (.ok (.int 0), envSet (envGet stA 1 "i").2 1 "i" (.int 5))) := by
  refine ⟨rfl, by decide, ?_⟩
  exact (env_cached_read_misses_ancestor_update.1
    ⟨[⟨none, [("i", Value.int 0)], [], 0⟩, ⟨some 0, [], [], 0⟩],
      [], [], [], "stdlib"⟩
    1 "i" (.int 0) (.int 5) _ 0 rfl rfl (by decide)).1

end XorLang
